import Mathlib

/-!
Verification of the quiz platform's attempt lifecycle, scoring and ranking
logic, as a shallow embedding of the repository's code.

The embedding covers:
* the student-facing quiz-play screen (`src/src/pages/QuizPlay.tsx`):
  `loadQuiz`, `saveAnswer`, `finishQuiz`, `nextQuestion`;
* the quiz editor (`src/src/pages/QuizEdit.tsx`): `updateAnswer` and the
  save-time validation in `saveQuiz`;
* the results screen (`src/src/pages/Results.tsx`): the deadline gate in
  `loadResults`;
* the SQL function `calculate_quiz_rankings` and the schema facts from the
  migrations (the `UNIQUE(quiz_session_id, student_id)` constraint on
  `quiz_attempts`, the `duration_minutes` column on `quiz_sessions`).

Database reads/writes are modelled error-free: a `maybeSingle()` lookup is an
`Option`, a table is a `List` of rows, inserts append rows, updates are
recorded explicitly.  Timestamps are epoch seconds (`Int`); row ids are
strings.
-/

namespace ICTQuiz

/-- Row identifiers (UUIDs / codes) are opaque strings, compared for equality. -/
abbrev Id := String

/-- The `question_type` column: `'single' | 'multiple'`. -/
inductive QType where
  | single
  | multiple
deriving DecidableEq, Repr

/-- An `answers` row as the quiz-play and quiz-edit screens see it. -/
structure Answer where
  id : Id
  answer_text : String
  is_correct : Bool
  order_index : Int
deriving DecidableEq, Repr

/-- A `questions` row together with its nested `answers(*)` rows,
as selected by `QuizPlay.loadQuiz`. -/
structure Question where
  id : Id
  question_text : String
  question_type : QType
  image_url : Option String
  order_index : Int
  answers : List Answer
deriving DecidableEq, Repr

/-- A `student_answers` row: one row per selected option per question per attempt. -/
structure StudentAnswerRow where
  attempt_id : Id
  question_id : Id
  answer_id : Id
  is_correct : Bool
deriving DecidableEq, Repr

/-- A `quiz_attempts` row (base schema plus the `time_taken_seconds` and
`ranking` columns added by the rankings migration). -/
structure AttemptRow where
  id : Id
  quiz_session_id : Id
  student_id : Id
  started_at : Int
  completed_at : Option Int
  score : Option Int
  total_questions : Int
  time_taken_seconds : Option Int
  ranking : Option Nat
deriving DecidableEq, Repr

/-- A `quiz_sessions` row.  `duration_minutes` is the column added by the
rankings migration (`src/unnamed/part_004`); `duration_seconds` is the field
the TypeScript client reads and writes (`QuizPlay.tsx`, `Quizzes.tsx`) —
the two never agree, which is exactly the inconsistency the spec flags. -/
structure QuizSessionRow where
  id : Id
  group_id : Option Id
  deadline : Int
  duration_seconds : Option Int
  duration_minutes : Option Int
  is_active : Bool
deriving DecidableEq, Repr

/-- A `students` row as far as quiz-play needs it. -/
structure StudentRow where
  id : Id
  student_code : String
  group_id : Id
deriving DecidableEq, Repr

/-! ### Scoring (QuizPlay.tsx)

The same three-line correctness check appears verbatim in `saveAnswer`
(lines 245–248), `finishQuiz` (289–292 and 334–337) and the resume branch of
`loadQuiz` (177–180):

```ts
const correctIds = q.answers.filter(a => a.is_correct).map(a => a.id);
const isCorrect = q.question_type === 'single'
  ? correctIds.includes(userAnswerIds[0])
  : correctIds.length === userAnswerIds.length
      && correctIds.every(id => userAnswerIds.includes(id));
```
-/

/-- Transliterates `q.answers.filter(a => a.is_correct).map(a => a.id)`. -/
def correctIds (q : Question) : List Id :=
  (q.answers.filter (·.is_correct)).map (·.id)

/-- The correctness check applied to a list of selected/stored answer ids.
`sel[0]` on an empty JS array is `undefined`, which is never an element of
`correctIds`, hence the `none => false` branch. -/
def isCorrectSel (q : Question) (sel : List Id) : Bool :=
  match q.question_type with
  | .single =>
      match sel.head? with
      | some a => (correctIds q).contains a
      | none => false
  | .multiple =>
      (correctIds q).length == sel.length
        && (correctIds q).all (fun i => sel.contains i)

/-- The stored answer ids for question `qid`, in row order — the value
`questionAnswers.get(q.id) || []` after the grouping loop in `finishQuiz`
(lines 322–328) and in the resume branch of `loadQuiz` (163–169). -/
def answersFor (stored : List StudentAnswerRow) (qid : Id) : List Id :=
  (stored.filter (fun r => r.question_id = qid)).map (·.answer_id)

/-- The score-recomputation loop of `finishQuiz` (lines 330–340), also used by
the resume branch of `loadQuiz` (172–185): one point per question whose stored
answers are non-empty and pass the correctness check. -/
def computeScore (questions : List Question) (stored : List StudentAnswerRow) : Nat :=
  questions.countP (fun q =>
    let u := answersFor stored q.id
    !u.isEmpty && isCorrectSel q u)

/-- Transliterates `q.answers.find(a => a.id === aid)?.is_correct || false` — the
`is_correct` flag written on each inserted `student_answers` row. -/
def storedIsCorrect (q : Question) (aid : Id) : Bool :=
  ((q.answers.find? (fun a => a.id = aid)).map (·.is_correct)).getD false

/-- The rows inserted into `student_answers` for question `q` from the
currently selected answers (`saveAnswer` lines 258–265, `finishQuiz` 301–308). -/
def insertedRows (attemptId : Id) (q : Question) (sel : List Id) : List StudentAnswerRow :=
  sel.map (fun aid => ⟨attemptId, q.id, aid, storedIsCorrect q aid⟩)

/-! ### The quiz-play component state

The mutable component state of `QuizPlay` that the answer-saving and
navigation handlers read and write, together with the `student_answers`
rows of the current attempt (`stored`) and the sequence of scores written to
the attempt's `score` column (`scoreWrites`). -/

structure QuizState where
  questions : List Question
  currentIndex : Nat
  selectedAnswers : List Id
  savedQuestionIds : List Id
  score : Nat
  finished : Bool
  attempt : Option Id
  stored : List StudentAnswerRow
  scoreWrites : List Nat
deriving DecidableEq, Repr

/-- Function `saveAnswer` (QuizPlay.tsx lines 235–280): bail out when nothing is
selected, no attempt exists, there is no current question, or the question was
already saved; otherwise bump the score if correct, insert the
`student_answers` rows, write the score to the attempt, and mark the question
as saved. -/
def saveAnswer (s : QuizState) : QuizState :=
  if s.selectedAnswers.isEmpty || s.attempt.isNone then s
  else
    match s.questions[s.currentIndex]? with
    | none => s
    | some q =>
      if q.id ∈ s.savedQuestionIds then s
      else
        let newScore :=
          if isCorrectSel q s.selectedAnswers then s.score + 1 else s.score
        { s with
            score := newScore
            stored := s.stored ++ insertedRows (s.attempt.getD "") q s.selectedAnswers
            scoreWrites := s.scoreWrites ++ [newScore]
            savedQuestionIds := q.id :: s.savedQuestionIds }

/-- The "save last answer if not already saved" prologue of `finishQuiz`
(lines 283–313).  Unlike `saveAnswer` it does not write the running score to
the database (the final update does that). -/
def finishLastSave (s : QuizState) : QuizState :=
  if !s.selectedAnswers.isEmpty && s.attempt.isSome then
    match s.questions[s.currentIndex]? with
    | none => s
    | some q =>
      if q.id ∈ s.savedQuestionIds then s
      else
        { s with
            score := if isCorrectSel q s.selectedAnswers then s.score + 1 else s.score
            stored := s.stored ++ insertedRows (s.attempt.getD "") q s.selectedAnswers
            savedQuestionIds := q.id :: s.savedQuestionIds }
  else s

/-- Function `finishQuiz` (lines 282–395), score-relevant effects: save the pending
answer, re-select all stored answers of the attempt, recompute the score from
them when there is at least one question (`allAnswers` is an array, hence
truthy, in the error-free model), persist the final score and mark the quiz
finished. -/
def finishQuiz (s : QuizState) : QuizState :=
  let s1 := finishLastSave s
  let finalScore :=
    if s1.questions.isEmpty then s1.score
    else computeScore s1.questions s1.stored
  { s1 with
      score := finalScore
      scoreWrites := s1.scoreWrites ++ [finalScore]
      finished := true }

/-- Function `nextQuestion` (lines 397–428): save the current answer, then either
advance one position (reloading any previously saved selection for the next
question) or, on the last question, finish the quiz. -/
def nextQuestion (s : QuizState) : QuizState :=
  let s1 :=
    if !s.selectedAnswers.isEmpty && s.attempt.isSome then saveAnswer s else s
  if s1.currentIndex < s1.questions.length - 1 then
    let ni := s1.currentIndex + 1
    let sel :=
      match s1.questions[ni]? with
      | some nq =>
          if nq.id ∈ s1.savedQuestionIds then answersFor s1.stored nq.id else []
      | none => []
    { s1 with currentIndex := ni, selectedAnswers := sel }
  else
    finishQuiz s1

/-- Transliterates `useState(0)`: the presentation starts at question index 0. -/
def initialCurrentIndex : Nat := 0

/-- The `order('order_index')` clause on the questions query: the fetched
rows sorted ascending by `order_index` (a stable sort, matching SQL). -/
def loadQuestionsOrdered (rows : List Question) : List Question :=
  rows.insertionSort (fun a b => a.order_index ≤ b.order_index)

/-! ### The claim-side scoring specification (for C1)

C1 words the per-question correctness condition as: a `'single'` question is
correct iff its first stored answer id is among the correct ids, a
`'multiple'` question is correct iff the *set* of stored ids equals exactly
the *set* of correct ids, and a question with no stored answers contributes
nothing.  This is a second, spec-phrased definition, to be compared with the
code-derived `computeScore`. -/

/-- The claim's per-question correctness condition. -/
def specQuestionCorrect (q : Question) (u : List Id) : Bool :=
  !u.isEmpty &&
    (match q.question_type with
     | .single =>
        match u.head? with
        | some a => decide (a ∈ correctIds q)
        | none => false
     | .multiple => decide (u.toFinset = (correctIds q).toFinset))

/-- The claim's score: the number of questions whose stored answers satisfy
`specQuestionCorrect`. -/
def specScore (questions : List Question) (stored : List StudentAnswerRow) : Nat :=
  questions.countP (fun q => specQuestionCorrect q (answersFor stored q.id))

/-- The ids of a question's correct answers are duplicate-free whenever the
question's answer ids are (they are primary keys). -/
lemma correctIds_nodup (q : Question) (h : (q.answers.map (·.id)).Nodup) :
    (correctIds q).Nodup := by
  unfold correctIds
  exact ((q.answers.filter_sublist).map (·.id)).nodup h

/-- Under duplicate-freeness, the code's `multiple` check
(`correctIds.length === userAnswerIds.length && correctIds.every(id =>
userAnswerIds.includes(id))`) is exactly set equality of the two id sets. -/
lemma multiple_check_iff_toFinset_eq (c u : List Id) (hc : c.Nodup) (hu : u.Nodup) :
    (c.length = u.length ∧ ∀ x ∈ c, x ∈ u) ↔ u.toFinset = c.toFinset := by
  constructor
  · rintro ⟨hlen, hsub⟩
    have hss : c.toFinset ⊆ u.toFinset := by
      intro x hx
      rw [List.mem_toFinset] at hx ⊢
      exact hsub x hx
    have hcard : u.toFinset.card ≤ c.toFinset.card := by
      rw [List.toFinset_card_of_nodup hc, List.toFinset_card_of_nodup hu, hlen]
    exact (Finset.eq_of_subset_of_card_le hss hcard).symm
  · intro h
    refine ⟨?_, ?_⟩
    · rw [← List.toFinset_card_of_nodup hc, ← List.toFinset_card_of_nodup hu, h]
    · intro x hx
      rw [← List.mem_toFinset, ← h, List.mem_toFinset] at hx
      exact hx

/-- Per question, the code's correctness check agrees with the claim's
condition, provided the correct-id list and the stored-id list are
duplicate-free. -/
lemma isCorrectSel_eq_spec (q : Question) (u : List Id)
    (hc : (correctIds q).Nodup) (hu : u.Nodup) :
    (!u.isEmpty && isCorrectSel q u) = specQuestionCorrect q u := by
  cases u with
  | nil => simp [isCorrectSel, specQuestionCorrect]
  | cons a tl =>
    cases hqt : q.question_type with
    | single =>
      simp [isCorrectSel, specQuestionCorrect, hqt]
    | multiple =>
      have h2 := multiple_check_iff_toFinset_eq (correctIds q) (a :: tl) hc hu
      simp only [specQuestionCorrect, isCorrectSel, hqt, List.isEmpty_cons,
        Bool.not_false, Bool.true_and]
      rw [Bool.eq_iff_iff]
      simp only [Bool.and_eq_true, beq_iff_eq, List.all_eq_true, decide_eq_true_eq]
      constructor
      · rintro ⟨h1, h3⟩
        exact h2.mp ⟨h1, fun x hx => by simpa using h3 x hx⟩
      · intro h1
        rcases h2.mpr h1 with ⟨hl, hs⟩
        exact ⟨hl, fun x hx => by simpa using hs x hx⟩

/-- The recomputed score of `finishQuiz` equals the claim's score whenever the
per-question id lists involved are duplicate-free. -/
lemma computeScore_eq_specScore (questions : List Question)
    (stored : List StudentAnswerRow)
    (hq : ∀ q ∈ questions, (q.answers.map (·.id)).Nodup)
    (hu : ∀ q ∈ questions, (answersFor stored q.id).Nodup) :
    computeScore questions stored = specScore questions stored := by
  unfold computeScore specScore
  refine List.countP_congr (fun q hmem => ?_)
  rw [isCorrectSel_eq_spec q (answersFor stored q.id)
    (correctIds_nodup q (hq q hmem)) (hu q hmem)]

lemma finishLastSave_questions (s : QuizState) :
    (finishLastSave s).questions = s.questions := by
  unfold finishLastSave
  split
  · split
    · rfl
    · split <;> rfl
  · rfl

lemma finishQuiz_stored (s : QuizState) :
    (finishQuiz s).stored = (finishLastSave s).stored := rfl

lemma finishQuiz_questions (s : QuizState) :
    (finishQuiz s).questions = s.questions := finishLastSave_questions s

lemma finishQuiz_score (s : QuizState) (h : ¬ s.questions.isEmpty) :
    (finishQuiz s).score = computeScore s.questions (finishLastSave s).stored := by
  unfold finishQuiz
  simp only [finishLastSave_questions, h]
  rfl

lemma finishQuiz_scoreWrites (s : QuizState) (h : ¬ s.questions.isEmpty) :
    (finishQuiz s).scoreWrites
      = (finishLastSave s).scoreWrites
          ++ [computeScore s.questions (finishLastSave s).stored] := by
  unfold finishQuiz
  simp only [finishLastSave_questions, h]
  rfl

/-- **C1.** When a student finishes a quiz attempt (`finishQuiz`), the score
persisted to the attempt equals the number of questions whose stored student
answers are correct in the claim's sense: a `'single'` question counts iff its
first stored answer id is among the question's correct answer ids, a
`'multiple'` question counts iff the set of stored answer ids equals exactly
the set of correct answer ids, and a question with no stored answers
contributes 0.  Stated over the `student_answers` rows present at completion
time (including the final pending answer that `finishQuiz` itself saves);
the duplicate-freeness hypotheses hold of real data since answer ids are
primary keys and each question's answers are saved at most once. -/
theorem C1_finishQuiz_persists_spec_score (s : QuizState)
    (hne : s.questions ≠ [])
    (hq : ∀ q ∈ s.questions, (q.answers.map (·.id)).Nodup)
    (hu : ∀ q ∈ s.questions, (answersFor (finishQuiz s).stored q.id).Nodup) :
    (finishQuiz s).score = specScore s.questions (finishQuiz s).stored ∧
    (finishQuiz s).scoreWrites.getLast?
      = some (specScore s.questions (finishQuiz s).stored) := by
  have hempty : ¬ s.questions.isEmpty := by
    simpa [List.isEmpty_iff] using hne
  have hu' : ∀ q ∈ s.questions,
      (answersFor (finishLastSave s).stored q.id).Nodup := by
    simpa [finishQuiz_stored] using hu
  have hmain : computeScore s.questions (finishLastSave s).stored
      = specScore s.questions (finishQuiz s).stored := by
    rw [finishQuiz_stored]
    exact computeScore_eq_specScore s.questions (finishLastSave s).stored hq hu'
  refine ⟨?_, ?_⟩
  · rw [finishQuiz_score s hempty, hmain]
  · rw [finishQuiz_scoreWrites s hempty, hmain]
    simp

/-- Concrete data for the C1 witness: one single-choice question, answered
correctly, already saved. -/
def w1Question : Question :=
  { id := "q1", question_text := "Q", question_type := .single, image_url := none,
    order_index := 0,
    answers := [⟨"a1", "A", true, 0⟩, ⟨"a2", "B", false, 1⟩] }

/-- Concrete quiz-play state for the C1 witness. -/
def w1State : QuizState :=
  { questions := [w1Question], currentIndex := 0, selectedAnswers := [],
    savedQuestionIds := ["q1"], score := 1, finished := false,
    attempt := some "at1",
    stored := [⟨"at1", "q1", "a1", true⟩], scoreWrites := [1] }

/-- Witness for C1 at a concrete state. -/
theorem C1_witness :
    w1State.questions ≠ [] ∧
    ((finishQuiz w1State).score
        = specScore w1State.questions (finishQuiz w1State).stored ∧
      (finishQuiz w1State).scoreWrites.getLast?
        = some (specScore w1State.questions (finishQuiz w1State).stored)) :=
  ⟨by decide,
    C1_finishQuiz_persists_spec_score w1State (by decide) (by decide) (by decide)⟩

/-! ### C9: `saveAnswer` guards and idempotence -/

/-- The early-return guards of `saveAnswer` (lines 236, 239, 242): nothing at
all happens when nothing is selected, no attempt exists, there is no current
question, or the current question has already been saved. -/
lemma saveAnswer_guard (s : QuizState)
    (h : s.selectedAnswers = [] ∨ s.attempt = none ∨
      s.questions[s.currentIndex]? = none ∨
      (∃ q, s.questions[s.currentIndex]? = some q ∧ q.id ∈ s.savedQuestionIds)) :
    saveAnswer s = s := by
  by_cases h1 : s.selectedAnswers.isEmpty || s.attempt.isNone
  · simp only [saveAnswer, h1, if_true]
  · rcases h with h | h | h | ⟨q, hq, hmem⟩
    · exact absurd (by simp [h]) h1
    · exact absurd (by simp [h]) h1
    · simp [saveAnswer, h1, h]
    · simp [saveAnswer, h1, hq, hmem]

lemma saveAnswer_preserve (s : QuizState) :
    (saveAnswer s).currentIndex = s.currentIndex ∧
    (saveAnswer s).questions = s.questions ∧
    (saveAnswer s).finished = s.finished := by
  unfold saveAnswer
  split
  · exact ⟨rfl, rfl, rfl⟩
  · split
    · exact ⟨rfl, rfl, rfl⟩
    · split
      · exact ⟨rfl, rfl, rfl⟩
      · exact ⟨rfl, rfl, rfl⟩

/-- **C9.** `saveAnswer` is idempotent per question: if the current question
is already in `savedQuestionIds`, or no answers are selected, or no attempt
exists, it returns with the state untouched — no `student_answers` rows
inserted, no score change, no score write — and saving twice is the same as
saving once, so a question can increment the running score at most once. -/
theorem C9_saveAnswer_idempotent (s : QuizState) :
    ((s.selectedAnswers = [] ∨ s.attempt = none ∨
        (∃ q, s.questions[s.currentIndex]? = some q ∧ q.id ∈ s.savedQuestionIds)) →
      saveAnswer s = s) ∧
    saveAnswer (saveAnswer s) = saveAnswer s := by
  refine ⟨fun h => saveAnswer_guard s (by tauto), ?_⟩
  by_cases h1 : s.selectedAnswers.isEmpty || s.attempt.isNone
  · have hid : saveAnswer s = s := by simp only [saveAnswer, h1, if_true]
    rw [hid, hid]
  · cases hq : s.questions[s.currentIndex]? with
    | none =>
      have hid : saveAnswer s = s := saveAnswer_guard s (by tauto)
      rw [hid, hid]
    | some q =>
      by_cases hmem : q.id ∈ s.savedQuestionIds
      · have hid : saveAnswer s = s := saveAnswer_guard s (by tauto)
        rw [hid, hid]
      · have hs' : saveAnswer s =
            { s with
                score := if isCorrectSel q s.selectedAnswers then s.score + 1
                  else s.score
                stored := s.stored
                  ++ insertedRows (s.attempt.getD "") q s.selectedAnswers
                scoreWrites := s.scoreWrites
                  ++ [if isCorrectSel q s.selectedAnswers then s.score + 1
                    else s.score]
                savedQuestionIds := q.id :: s.savedQuestionIds } := by
          simp [saveAnswer, h1, hq, hmem]
        rw [hs']
        exact saveAnswer_guard _ (Or.inr (Or.inr (Or.inr ⟨q, hq, by simp⟩)))

/-- Concrete state for the C9 witness: the current question is already saved. -/
def w9State : QuizState :=
  { questions := [w1Question], currentIndex := 0, selectedAnswers := ["a2"],
    savedQuestionIds := ["q1"], score := 1, finished := false,
    attempt := some "at1",
    stored := [⟨"at1", "q1", "a1", true⟩], scoreWrites := [1] }

/-- Witness for C9 at a concrete state. -/
theorem C9_witness :
    saveAnswer w9State = w9State ∧
    saveAnswer (saveAnswer w9State) = saveAnswer w9State := by
  have h := C9_saveAnswer_idempotent w9State
  exact ⟨h.1 (Or.inr (Or.inr ⟨w1Question, by decide, by decide⟩)), h.2⟩

/-! ### C8: questions served in ascending `order_index`, one step at a time -/

/-- The `ORDER BY order_index` relation on question rows. -/
def qOrderLe (a b : Question) : Prop := a.order_index ≤ b.order_index

instance : DecidableRel qOrderLe := fun a b => by
  unfold qOrderLe
  infer_instance

instance : IsTotal Question qOrderLe := ⟨fun a b => Int.le_total a.order_index b.order_index⟩

instance : IsTrans Question qOrderLe := ⟨fun _ _ _ hab hbc => le_trans hab hbc⟩

lemma finishLastSave_currentIndex (s : QuizState) :
    (finishLastSave s).currentIndex = s.currentIndex := by
  unfold finishLastSave
  split
  · split
    · rfl
    · split <;> rfl
  · rfl

lemma finishQuiz_currentIndex (s : QuizState) :
    (finishQuiz s).currentIndex = s.currentIndex := finishLastSave_currentIndex s

lemma finishQuiz_finished (s : QuizState) : (finishQuiz s).finished = true := rfl

/-- The state `nextQuestion` reads after its initial conditional save. -/
def afterSave (s : QuizState) : QuizState :=
  if !s.selectedAnswers.isEmpty && s.attempt.isSome then saveAnswer s else s

lemma afterSave_preserve (s : QuizState) :
    (afterSave s).currentIndex = s.currentIndex ∧
    (afterSave s).questions = s.questions ∧
    (afterSave s).finished = s.finished := by
  unfold afterSave
  split
  · exact saveAnswer_preserve s
  · exact ⟨rfl, rfl, rfl⟩

lemma nextQuestion_eq (s : QuizState) :
    nextQuestion s =
      (if (afterSave s).currentIndex < (afterSave s).questions.length - 1 then
        let ni := (afterSave s).currentIndex + 1
        let sel :=
          match (afterSave s).questions[ni]? with
          | some nq =>
              if nq.id ∈ (afterSave s).savedQuestionIds then
                answersFor (afterSave s).stored nq.id
              else []
          | none => []
        { afterSave s with currentIndex := ni, selectedAnswers := sel }
      else finishQuiz (afterSave s)) := rfl

/-- **C8.** Questions are served in ascending `order_index`: the loader sorts
by `order_index`, presentation starts at index 0, and `nextQuestion` advances
exactly one position at a time while not at the last question, after which it
finishes the quiz instead of advancing. -/
theorem C8_questions_in_order (rows : List Question) (s : QuizState) :
    List.Sorted qOrderLe (loadQuestionsOrdered rows) ∧
    (loadQuestionsOrdered rows).Perm rows ∧
    initialCurrentIndex = 0 ∧
    (s.currentIndex < s.questions.length - 1 →
      (nextQuestion s).currentIndex = s.currentIndex + 1 ∧
      (nextQuestion s).finished = s.finished) ∧
    (¬ s.currentIndex < s.questions.length - 1 →
      (nextQuestion s).finished = true ∧
      (nextQuestion s).currentIndex = s.currentIndex) := by
  obtain ⟨hci, hqs, hfin⟩ := afterSave_preserve s
  refine ⟨List.sorted_insertionSort qOrderLe rows,
    List.perm_insertionSort _ rows, rfl, ?_, ?_⟩
  · intro h
    have hcond : (afterSave s).currentIndex < (afterSave s).questions.length - 1 := by
      rw [hci, hqs]; exact h
    rw [nextQuestion_eq, if_pos hcond]
    exact ⟨by simpa using hci, by simpa using hfin⟩
  · intro h
    have hcond : ¬ (afterSave s).currentIndex < (afterSave s).questions.length - 1 := by
      rw [hci, hqs]; exact h
    rw [nextQuestion_eq, if_neg hcond]
    exact ⟨finishQuiz_finished _, by rw [finishQuiz_currentIndex, hci]⟩

/-- Concrete two-question state for the C8 witness. -/
def w8State : QuizState :=
  { questions :=
      [w1Question,
       { id := "q2", question_text := "Q2", question_type := .multiple,
         image_url := none, order_index := 1,
         answers := [⟨"b1", "A", true, 0⟩, ⟨"b2", "B", true, 1⟩] }],
    currentIndex := 0, selectedAnswers := [], savedQuestionIds := [],
    score := 0, finished := false, attempt := some "at1", stored := [],
    scoreWrites := [] }

/-- Witness for C8 at a concrete state: from question 0 of 2, `nextQuestion`
advances to index 1 without finishing. -/
theorem C8_witness :
    (nextQuestion w8State).currentIndex = 0 + 1 ∧
    (nextQuestion w8State).finished = false := by
  obtain ⟨-, -, -, hadv, -⟩ :=
    C8_questions_in_order w8State.questions w8State
  exact ⟨(hadv (by decide)).1, (hadv (by decide)).2⟩

/-! ### `loadQuiz` (QuizPlay.tsx lines 78–214)

The inputs are the results of the error-free database lookups the function
performs; the output records its effects: whether the student was redirected
away, the `quiz_attempts` table afterwards, the attempt-score updates and
`student_answers` inserts performed, the score shown, and whether the screen
goes straight to the finished view. -/

structure LoadInput where
  /-- The `quiz_sessions` row matching the access code (`maybeSingle`). -/
  quizRow : Option QuizSessionRow
  /-- Value of `new Date()` at load time. -/
  now : Int
  /-- The `students` row matching the student code (`maybeSingle`). -/
  studentRow : Option StudentRow
  /-- The `group_id`s of the `quiz_session_groups` rows of this quiz. -/
  junctionGroupIds : List Id
  /-- The `quiz_attempts` table. -/
  attempts : List AttemptRow
  /-- The quiz's `questions` rows (with nested answers), as stored. -/
  questionRows : List Question
  /-- The attempt's existing `student_answers` rows. -/
  existingAnswers : List StudentAnswerRow
  /-- Id the database would assign to a newly inserted attempt. -/
  freshId : Id
deriving Repr

structure LoadOutput where
  redirected : Bool
  attempts : List AttemptRow
  scoreWrites : List (Id × Int)
  answerInserts : List StudentAnswerRow
  displayScore : Int
  finished : Bool
deriving DecidableEq, Repr

/-- The `quiz_attempts` lookup `.eq('quiz_session_id', ...).eq('student_id', ...)
.maybeSingle()` (line 123). -/
def findAttempt (t : List AttemptRow) (qid sid : Id) : Option AttemptRow :=
  t.find? (fun a => a.quiz_session_id = qid && a.student_id = sid)

/-- Lines 105–110: the junction-table group ids, plus the legacy
`quiz_sessions.group_id` when set and not already present. -/
def assignedGroupIds (quiz : QuizSessionRow) (junction : List Id) : List Id :=
  junction ++
    (match quiz.group_id with
     | some g => if g ∈ junction then [] else [g]
     | none => [])

/-- The attempt row inserted at lines 200–204 (`score` and `started_at` come
from the schema defaults `0` and `now()`). -/
def newAttemptRow (inp : LoadInput) (quiz : QuizSessionRow) (student : StudentRow) :
    AttemptRow :=
  { id := inp.freshId, quiz_session_id := quiz.id, student_id := student.id,
    started_at := inp.now, completed_at := none, score := some 0,
    total_questions := (inp.questionRows.length : Int),
    time_taken_seconds := none, ranking := none }

/-- The effect of every `navigate('/')` failure path: nothing written. -/
def redirectOut (inp : LoadInput) : LoadOutput :=
  { redirected := true, attempts := inp.attempts, scoreWrites := [],
    answerInserts := [], displayScore := 0, finished := false }

/-- Function `loadQuiz` (lines 78–214), error-free paths. -/
def loadQuiz (inp : LoadInput) : LoadOutput :=
  match inp.quizRow with
  | none => redirectOut inp
  | some quiz =>
    if quiz.deadline < inp.now then redirectOut inp
    else
      match inp.studentRow with
      | none => redirectOut inp
      | some student =>
        if student.group_id ∉ assignedGroupIds quiz inp.junctionGroupIds then
          redirectOut inp
        else
          match findAttempt inp.attempts quiz.id student.id with
          | some a =>
            if a.completed_at.isSome then
              { redirected := false, attempts := inp.attempts, scoreWrites := [],
                answerInserts := [], displayScore := (a.score).getD 0,
                finished := true }
            else
              match a.score with
              | some sc =>
                { redirected := false, attempts := inp.attempts,
                  scoreWrites := [], answerInserts := [], displayScore := sc,
                  finished := false }
              | none =>
                let recomputed : Int :=
                  computeScore (loadQuestionsOrdered inp.questionRows)
                    inp.existingAnswers
                { redirected := false, attempts := inp.attempts,
                  scoreWrites := [(a.id, recomputed)], answerInserts := [],
                  displayScore := recomputed, finished := false }
          | none =>
            { redirected := false,
              attempts := inp.attempts ++ [newAttemptRow inp quiz student],
              scoreWrites := [], answerInserts := [], displayScore := 0,
              finished := false }

/-- Membership in the assigned-group list is: linked via the junction table,
or equal to the legacy `group_id`. -/
lemma mem_assignedGroupIds (quiz : QuizSessionRow) (junction : List Id) (x : Id) :
    x ∈ assignedGroupIds quiz junction ↔
      x ∈ junction ∨ quiz.group_id = some x := by
  unfold assignedGroupIds
  cases hg : quiz.group_id with
  | none => simp
  | some g =>
    by_cases hgj : g ∈ junction
    · simp only [hgj, if_true, List.append_nil, Option.some.injEq]
      constructor
      · exact Or.inl
      · rintro (h | rfl)
        · exact h
        · exact hgj
    · simp only [hgj, if_false, List.mem_append, List.mem_singleton,
        Option.some.injEq]
      constructor
      · rintro (h | rfl)
        · exact Or.inl h
        · exact Or.inr rfl
      · rintro (h | rfl)
        · exact Or.inl h
        · exact Or.inr rfl

/-- After the access-control gate passes, no path redirects. -/
lemma loadQuiz_not_redirected (inp : LoadInput) (q : QuizSessionRow)
    (st : StudentRow) (hq : inp.quizRow = some q) (hd : ¬ q.deadline < inp.now)
    (hs : inp.studentRow = some st)
    (hg : st.group_id ∈ assignedGroupIds q inp.junctionGroupIds) :
    (loadQuiz inp).redirected = false := by
  simp only [loadQuiz, hq, hs]
  rw [if_neg hd, if_neg (not_not_intro hg)]
  cases hf : findAttempt inp.attempts q.id st.id with
  | none => rfl
  | some a =>
    by_cases hc : a.completed_at.isSome
    · simp [hc]
    · cases hsc : a.score <;> simp [hc, hsc]

/-- Function `loadQuiz` either takes a failure path (returning `redirectOut`) or does
not redirect. -/
lemma loadQuiz_total (inp : LoadInput) :
    loadQuiz inp = redirectOut inp ∨ (loadQuiz inp).redirected = false := by
  unfold loadQuiz
  split
  · exact Or.inl rfl
  · split
    · exact Or.inl rfl
    · split
      · exact Or.inl rfl
      · split
        · exact Or.inl rfl
        · split
          · split
            · exact Or.inr rfl
            · split
              · exact Or.inr rfl
              · exact Or.inr rfl
          · exact Or.inr rfl

/-- The redirection condition, as an if-and-only-if. -/
lemma loadQuiz_redirected_iff (inp : LoadInput) :
    (loadQuiz inp).redirected = true ↔
      inp.quizRow = none ∨
      (∃ q, inp.quizRow = some q ∧ q.deadline < inp.now) ∨
      inp.studentRow = none ∨
      (∃ q st, inp.quizRow = some q ∧ inp.studentRow = some st ∧
        st.group_id ∉ inp.junctionGroupIds ∧ q.group_id ≠ some st.group_id) := by
  cases hq : inp.quizRow with
  | none => simp [loadQuiz, hq, redirectOut]
  | some q =>
    by_cases hd : q.deadline < inp.now
    · simp [loadQuiz, hq, hd, redirectOut]
    · cases hs : inp.studentRow with
      | none => simp [loadQuiz, hq, hd, hs, redirectOut]
      | some st =>
        by_cases hg : st.group_id ∈ assignedGroupIds q inp.junctionGroupIds
        · rw [loadQuiz_not_redirected inp q st hq hd hs hg]
          rcases (mem_assignedGroupIds q inp.junctionGroupIds st.group_id).mp hg
            with hj | hl
          · simp [hq, hd, hs, hj]
          · simp [hq, hd, hs, hl]
        · have hred : loadQuiz inp = redirectOut inp := by
            simp only [loadQuiz, hq, hs]
            rw [if_neg hd, if_pos hg]
          rw [hred]
          have hsplit :
              st.group_id ∉ inp.junctionGroupIds ∧ q.group_id ≠ some st.group_id := by
            rw [mem_assignedGroupIds] at hg
            exact ⟨fun h => hg (Or.inl h), fun h => hg (Or.inr h)⟩
          simp [redirectOut, hq, hd, hs, hsplit.1, hsplit.2]

/-- **C6.** Loading the quiz-play screen redirects the student away — with no
attempt row created and nothing written — if and only if: no quiz session
matches the access code, or the quiz's deadline is in the past, or no student
matches the student code, or the student's group is neither linked via
`quiz_session_groups` nor equal to the quiz's legacy `group_id`; otherwise the
quiz is served. -/
theorem C6_load_gate (inp : LoadInput) :
    ((loadQuiz inp).redirected = true ↔
      inp.quizRow = none ∨
      (∃ q, inp.quizRow = some q ∧ q.deadline < inp.now) ∨
      inp.studentRow = none ∨
      (∃ q st, inp.quizRow = some q ∧ inp.studentRow = some st ∧
        st.group_id ∉ inp.junctionGroupIds ∧ q.group_id ≠ some st.group_id)) ∧
    ((loadQuiz inp).redirected = true →
      (loadQuiz inp).attempts = inp.attempts ∧
      (loadQuiz inp).scoreWrites = [] ∧
      (loadQuiz inp).answerInserts = []) := by
  refine ⟨loadQuiz_redirected_iff inp, fun hred => ?_⟩
  rcases loadQuiz_total inp with h | h
  · rw [h]
    exact ⟨rfl, rfl, rfl⟩
  · rw [h] at hred
    cases hred

/-- Concrete input for the C6 witness: quiz found, deadline passed. -/
def w6Input : LoadInput :=
  { quizRow := some
      { id := "qz", group_id := some "g1", deadline := 5, duration_seconds := none,
        duration_minutes := none, is_active := true },
    now := 10, studentRow := some ⟨"st", "S1", "g1"⟩, junctionGroupIds := [],
    attempts := [], questionRows := [], existingAnswers := [], freshId := "new" }

/-- Witness for C6 at a concrete input: the deadline 5 is before now 10, so
the student is redirected and nothing is written. -/
theorem C6_witness :
    (loadQuiz w6Input).redirected = true ∧
    (loadQuiz w6Input).attempts = w6Input.attempts ∧
    (loadQuiz w6Input).scoreWrites = [] ∧
    (loadQuiz w6Input).answerInserts = [] := by
  obtain ⟨hiff, hframe⟩ := C6_load_gate w6Input
  have hred : (loadQuiz w6Input).redirected = true :=
    hiff.mpr (Or.inr (Or.inl ⟨_, rfl, by decide⟩))
  exact ⟨hred, hframe hred⟩

/-! ### C5: at most one attempt per (quiz session, student) pair -/

/-- The `UNIQUE(quiz_session_id, student_id)` constraint of the
`quiz_attempts` table, as a table invariant. -/
def pairUnique (t : List AttemptRow) : Prop :=
  ∀ qid sid : Id,
    (t.filter (fun a => a.quiz_session_id = qid && a.student_id = sid)).length ≤ 1

/-- Structural description of the attempt table after `loadQuiz`: unchanged,
or extended by exactly one new attempt when — and only when — the lookup for
the (quiz, student) pair returned none. -/
lemma loadQuiz_attempts_cases (inp : LoadInput) :
    (loadQuiz inp).attempts = inp.attempts ∨
      (∃ q st, inp.quizRow = some q ∧ inp.studentRow = some st ∧
        findAttempt inp.attempts q.id st.id = none ∧
        (loadQuiz inp).attempts = inp.attempts ++ [newAttemptRow inp q st]) := by
  cases hq : inp.quizRow with
  | none => left; simp [loadQuiz, hq, redirectOut]
  | some q =>
    by_cases hd : q.deadline < inp.now
    · left; simp [loadQuiz, hq, hd, redirectOut]
    · cases hs : inp.studentRow with
      | none => left; simp [loadQuiz, hq, hd, hs, redirectOut]
      | some st =>
        by_cases hg : st.group_id ∈ assignedGroupIds q inp.junctionGroupIds
        · cases hf : findAttempt inp.attempts q.id st.id with
          | some a =>
            left
            simp only [loadQuiz, hq, hs]
            rw [if_neg hd, if_neg (not_not_intro hg), hf]
            by_cases hc : a.completed_at.isSome
            · simp [hc]
            · cases hsc : a.score <;> simp [hc, hsc]
          | none =>
            right
            refine ⟨q, st, rfl, rfl, hf, ?_⟩
            simp only [loadQuiz, hq, hs]
            rw [if_neg hd, if_neg (not_not_intro hg), hf]
        · left
          simp only [loadQuiz, hq, hs]
          rw [if_neg hd, if_pos hg]
          rfl

/-- **C5.** At most one quiz attempt exists per (quiz session, student) pair:
the schema's `UNIQUE(quiz_session_id, student_id)` invariant is preserved by
the quiz-play loader, which inserts a new attempt only when its lookup for the
pair returns none and otherwise resumes the existing attempt (leaving the
table unchanged). -/
theorem C5_one_attempt_per_pair (inp : LoadInput)
    (h : pairUnique inp.attempts) :
    pairUnique (loadQuiz inp).attempts ∧
    ((loadQuiz inp).attempts = inp.attempts ∨
      (∃ q st, inp.quizRow = some q ∧ inp.studentRow = some st ∧
        findAttempt inp.attempts q.id st.id = none ∧
        (loadQuiz inp).attempts = inp.attempts ++ [newAttemptRow inp q st])) := by
  refine ⟨?_, loadQuiz_attempts_cases inp⟩
  rcases loadQuiz_attempts_cases inp with heq | ⟨q, st, hq, hs, hf, heq⟩
  · rw [heq]; exact h
  · rw [heq]
    intro qid sid
    rw [List.filter_append, List.length_append]
    by_cases hmatch : q.id = qid ∧ st.id = sid
    · have hold : inp.attempts.filter
          (fun a => a.quiz_session_id = qid && a.student_id = sid) = [] := by
        rw [List.filter_eq_nil_iff]
        intro a ha
        have hnone := List.find?_eq_none.mp hf a ha
        simp only [Bool.and_eq_true, decide_eq_true_eq] at hnone ⊢
        rw [← hmatch.1, ← hmatch.2]
        exact hnone
      have hbool : ((newAttemptRow inp q st).quiz_session_id = qid &&
          (newAttemptRow inp q st).student_id = sid) = true := by
        simp only [Bool.and_eq_true, decide_eq_true_eq, newAttemptRow]
        exact ⟨hmatch.1, hmatch.2⟩
      rw [hold, List.filter_cons, if_pos hbool, List.filter_nil]
      simp
    · have hbool : ¬ ((newAttemptRow inp q st).quiz_session_id = qid &&
          (newAttemptRow inp q st).student_id = sid) = true := by
        simp only [Bool.and_eq_true, decide_eq_true_eq, newAttemptRow]
        exact fun hcon => hmatch ⟨hcon.1, hcon.2⟩
      rw [List.filter_cons, if_neg hbool, List.filter_nil]
      simpa using h qid sid

/-- Concrete input for the C5 witness: valid quiz and student, no existing
attempt; the invariant is preserved across the insert. -/
def w5Input : LoadInput :=
  { quizRow := some
      { id := "qz", group_id := some "g1", deadline := 50, duration_seconds := none,
        duration_minutes := none, is_active := true },
    now := 10, studentRow := some ⟨"st", "S1", "g1"⟩, junctionGroupIds := ["g1"],
    attempts := [], questionRows := [], existingAnswers := [], freshId := "new" }

/-- Witness for C5 at a concrete input. -/
theorem C5_witness :
    pairUnique (loadQuiz w5Input).attempts ∧
    ((loadQuiz w5Input).attempts = w5Input.attempts ∨
      (∃ q st, w5Input.quizRow = some q ∧ w5Input.studentRow = some st ∧
        findAttempt w5Input.attempts q.id st.id = none ∧
        (loadQuiz w5Input).attempts
          = w5Input.attempts ++ [newAttemptRow w5Input q st])) :=
  C5_one_attempt_per_pair w5Input (fun _ _ => by simp [w5Input])

/-! ### C10: re-entering a completed attempt performs no writes -/

/-- **C10.** Re-entering the quiz-play screen for an attempt whose
`completed_at` is set performs no writes: no new attempt is created, no
`student_answers` rows are inserted, and the stored score is neither
recalculated nor updated; the screen shows the stored score, treating a NULL
stored score as 0, and goes straight to the finished view. -/
theorem C10_completed_attempt_frame (inp : LoadInput) (q : QuizSessionRow)
    (st : StudentRow) (a : AttemptRow) (t : Int)
    (hq : inp.quizRow = some q) (hd : ¬ q.deadline < inp.now)
    (hs : inp.studentRow = some st)
    (hg : st.group_id ∈ assignedGroupIds q inp.junctionGroupIds)
    (hf : findAttempt inp.attempts q.id st.id = some a)
    (hc : a.completed_at = some t) :
    (loadQuiz inp).attempts = inp.attempts ∧
    (loadQuiz inp).scoreWrites = [] ∧
    (loadQuiz inp).answerInserts = [] ∧
    (loadQuiz inp).displayScore = (a.score).getD 0 ∧
    (loadQuiz inp).finished = true := by
  have hc' : a.completed_at.isSome = true := by rw [hc]; rfl
  simp only [loadQuiz, hq, hs]
  rw [if_neg hd, if_neg (not_not_intro hg), hf]
  simp [hc']

/-- Concrete input for the C10 witness: an attempt completed at time 7 with a
NULL stored score; the screen shows 0 and writes nothing. -/
def w10Attempt : AttemptRow :=
  { id := "at1", quiz_session_id := "qz", student_id := "st", started_at := 1,
    completed_at := some 7, score := none, total_questions := 1,
    time_taken_seconds := some 6, ranking := none }

/-- Concrete input for the C10 witness. -/
def w10Input : LoadInput :=
  { quizRow := some
      { id := "qz", group_id := some "g1", deadline := 50, duration_seconds := none,
        duration_minutes := none, is_active := true },
    now := 10, studentRow := some ⟨"st", "S1", "g1"⟩, junctionGroupIds := ["g1"],
    attempts := [w10Attempt], questionRows := [w1Question],
    existingAnswers := [⟨"at1", "q1", "a1", true⟩], freshId := "new" }

/-- Witness for C10 at a concrete input. -/
theorem C10_witness :
    (loadQuiz w10Input).attempts = w10Input.attempts ∧
    (loadQuiz w10Input).scoreWrites = [] ∧
    (loadQuiz w10Input).answerInserts = [] ∧
    (loadQuiz w10Input).displayScore = (w10Attempt.score).getD 0 ∧
    (loadQuiz w10Input).finished = true :=
  C10_completed_attempt_frame w10Input _ _ w10Attempt 7 rfl (by decide) rfl
    (by decide) (by decide) rfl

/-! ### `calculate_quiz_rankings` (src/unnamed/part_004)

```sql
SELECT deadline INTO deadline_time FROM quiz_sessions WHERE id = $1;
IF deadline_time IS NULL OR deadline_time > NOW() THEN RETURN; END IF;
UPDATE quiz_attempts SET ranking = NULL WHERE quiz_session_id = $1;
UPDATE quiz_attempts SET time_taken_seconds = completed_at - started_at
  WHERE quiz_session_id = $1 AND completed_at IS NOT NULL
    AND time_taken_seconds IS NULL;
WITH ranked_attempts AS (SELECT id, ROW_NUMBER() OVER (ORDER BY
    score DESC NULLS LAST, time_taken_seconds ASC NULLS LAST,
    completed_at ASC) rank_position
  FROM quiz_attempts WHERE quiz_session_id = $1 AND completed_at IS NOT NULL)
UPDATE quiz_attempts qa SET ranking = ra.rank_position
  FROM ranked_attempts ra WHERE qa.id = ra.id AND ra.rank_position <= 3;
```
-/

/-- Transliterates `SELECT deadline INTO deadline_time ... WHERE id = quiz_session_uuid`
(NULL when no session matches). -/
def sessionDeadline (sessions : List QuizSessionRow) (qid : Id) : Option Int :=
  (sessions.find? (fun s => s.id = qid)).map (·.deadline)

/-- The `ORDER BY` key as an ascending lexicographic value:
score DESC NULLS LAST, then `time_taken_seconds` ASC NULLS LAST, then
`completed_at` ASC (always non-NULL on the rows being ranked). -/
def rankKey (a : AttemptRow) : Int ×ₗ (Int ×ₗ (Int ×ₗ (Int ×ₗ Int))) :=
  toLex ((if a.score.isSome then 0 else 1 : Int),
    toLex (-(a.score.getD 0),
      toLex ((if a.time_taken_seconds.isSome then 0 else 1 : Int),
        toLex (a.time_taken_seconds.getD 0, a.completed_at.getD 0))))

/-- The `ORDER BY` relation of the ranking query. -/
def rankLe (a b : AttemptRow) : Prop := rankKey a ≤ rankKey b

instance : DecidableRel rankLe := fun a b => by
  unfold rankLe
  infer_instance

instance : IsTotal AttemptRow rankLe := ⟨fun a b => le_total (rankKey a) (rankKey b)⟩

instance : IsTrans AttemptRow rankLe := ⟨fun _ _ _ hab hbc => le_trans hab hbc⟩

/-- Transliterates `UPDATE quiz_attempts SET ranking = NULL WHERE quiz_session_id = qid`. -/
def resetRankings (qid : Id) (l : List AttemptRow) : List AttemptRow :=
  l.map fun a => if a.quiz_session_id = qid then { a with ranking := none } else a

/-- Transliterates `UPDATE ... SET time_taken_seconds = EXTRACT(EPOCH FROM (completed_at -
started_at)) WHERE quiz_session_id = qid AND completed_at IS NOT NULL AND
time_taken_seconds IS NULL`. -/
def fillTimes (qid : Id) (l : List AttemptRow) : List AttemptRow :=
  l.map fun a =>
    if a.quiz_session_id = qid ∧ a.completed_at.isSome = true ∧
        a.time_taken_seconds = none then
      { a with time_taken_seconds := some (a.completed_at.getD 0 - a.started_at) }
    else a

/-- Filter `WHERE quiz_session_id = qid AND completed_at IS NOT NULL`. -/
def completedAttempts (qid : Id) (l : List AttemptRow) : List AttemptRow :=
  l.filter fun a => a.quiz_session_id = qid && a.completed_at.isSome

/-- The window-function ordering, as a (stable) sort by the `ORDER BY` key. -/
def rankSort (l : List AttemptRow) : List AttemptRow := l.insertionSort rankLe

/-- The `ROW_NUMBER()` position (0-based) of the row with the given id. -/
def posIn : List AttemptRow → Id → Option Nat
  | [], _ => none
  | r :: rs, i => if r.id = i then some 0 else (posIn rs i).map (· + 1)

/-- Effect of the final UPDATE on one row: set `ranking` to the row's
1-based `ROW_NUMBER` position when that position is at most 3. -/
def assignRow (sorted : List AttemptRow) (a : AttemptRow) : AttemptRow :=
  match posIn sorted a.id with
  | some i => if i + 1 ≤ 3 then { a with ranking := some (i + 1) } else a
  | none => a

/-- The final `UPDATE ... SET ranking = ra.rank_position ... WHERE qa.id =
ra.id AND ra.rank_position <= 3`. -/
def assignRankings (sorted : List AttemptRow) (l : List AttemptRow) : List AttemptRow :=
  l.map (assignRow sorted)

/-- The table state after the two preparatory UPDATEs. -/
def rankingPrepared (qid : Id) (attempts : List AttemptRow) : List AttemptRow :=
  fillTimes qid (resetRankings qid attempts)

/-- The quiz's completed attempts, in ranking order. -/
def rankingSorted (qid : Id) (attempts : List AttemptRow) : List AttemptRow :=
  rankSort (completedAttempts qid (rankingPrepared qid attempts))

/-- The SQL function `calculate_quiz_rankings`, acting on the
`quiz_attempts` table. -/
def calculate_quiz_rankings (now : Int) (sessions : List QuizSessionRow)
    (qid : Id) (attempts : List AttemptRow) : List AttemptRow :=
  match sessionDeadline sessions qid with
  | none => attempts
  | some d =>
    if now < d then attempts
    else assignRankings (rankingSorted qid attempts) (rankingPrepared qid attempts)

/-- Function `Results.loadResults` (Results.tsx lines 86–97) calls the ranking RPC
exactly when `new Date(quizData.deadline) < new Date()`. -/
def loadResultsRecalculates (deadline now : Int) : Bool :=
  decide (deadline < now)

/-- Mapping a list with an id-preserving function keeps the id column. -/
lemma map_id_comp (l : List AttemptRow) (f : AttemptRow → AttemptRow)
    (h : ∀ a, (f a).id = a.id) : (l.map f).map (·.id) = l.map (·.id) := by
  induction l with
  | nil => rfl
  | cons a tl ih => simp [h a, ih]

lemma resetRankings_preserves_id (qid : Id) (a : AttemptRow) :
    (if a.quiz_session_id = qid then { a with ranking := none } else a).id
      = a.id := by
  split <;> rfl

lemma fillTimes_preserves_id (qid : Id) (a : AttemptRow) :
    (if a.quiz_session_id = qid ∧ a.completed_at.isSome = true ∧
          a.time_taken_seconds = none then
        { a with
            time_taken_seconds := some (a.completed_at.getD 0 - a.started_at) }
      else a).id = a.id := by
  split <;> rfl

/-- The two preparatory UPDATEs do not change the id column. -/
lemma rankingPrepared_map_id (qid : Id) (attempts : List AttemptRow) :
    (rankingPrepared qid attempts).map (·.id) = attempts.map (·.id) := by
  unfold rankingPrepared fillTimes resetRankings
  rw [map_id_comp _ _ (fun a => fillTimes_preserves_id qid a),
    map_id_comp _ _ (fun a => resetRankings_preserves_id qid a)]

/-- After the reset UPDATE (and the time-filling UPDATE, which leaves
`ranking` alone), every attempt of the quiz has a NULL ranking. -/
lemma rankingPrepared_ranking (qid : Id) (attempts : List AttemptRow)
    (hq : ∀ a ∈ attempts, a.quiz_session_id = qid) :
    ∀ a ∈ rankingPrepared qid attempts, a.ranking = none := by
  intro a ha
  unfold rankingPrepared fillTimes at ha
  rcases List.mem_map.mp ha with ⟨b, hb, rfl⟩
  unfold resetRankings at hb
  rcases List.mem_map.mp hb with ⟨c, hc, rfl⟩
  rw [if_pos (hq c hc)]
  split <;> rfl

/-- The time-filling UPDATE leaves `completed_at` alone. -/
lemma rankingPrepared_completed (qid : Id) (attempts : List AttemptRow) :
    ∀ a ∈ rankingPrepared qid attempts, ∃ c ∈ attempts,
      a.completed_at = c.completed_at ∧ a.id = c.id := by
  intro a ha
  unfold rankingPrepared fillTimes at ha
  rcases List.mem_map.mp ha with ⟨b, hb, rfl⟩
  unfold resetRankings at hb
  rcases List.mem_map.mp hb with ⟨c, hc, rfl⟩
  refine ⟨c, hc, ?_⟩
  dsimp only
  constructor
  · split
    · split <;> rfl
    · split <;> rfl
  · split
    · split <;> rfl
    · split <;> rfl

lemma posIn_eq_none (l : List AttemptRow) (x : Id) :
    posIn l x = none ↔ ∀ r ∈ l, r.id ≠ x := by
  induction l with
  | nil => simp [posIn]
  | cons r rs ih =>
    by_cases h : r.id = x
    · simp [posIn, h]
    · simp [posIn, h, Option.map_eq_none', ih]

lemma posIn_some_mem (l : List AttemptRow) (x : Id) (i : Nat)
    (h : posIn l x = some i) : ∃ c ∈ l, c.id = x := by
  induction l generalizing i with
  | nil => simp [posIn] at h
  | cons r rs ih =>
    by_cases hr : r.id = x
    · exact ⟨r, List.mem_cons_self r rs, hr⟩
    · simp only [posIn, hr, if_false, Option.map_eq_some'] at h
      rcases h with ⟨j, hj, -⟩
      rcases ih j hj with ⟨c, hc, hcx⟩
      exact ⟨c, List.mem_cons_of_mem r hc, hcx⟩

/-- On a list with duplicate-free ids, the `ROW_NUMBER` position of the `i`-th
element's id is `i`. -/
lemma posIn_get (l : List AttemptRow) (hnd : (l.map (·.id)).Nodup) (i : Nat)
    (h : i < l.length) : posIn l ((l.get ⟨i, h⟩).id) = some i := by
  induction l generalizing i with
  | nil => cases h
  | cons r rs ih =>
    rw [List.map_cons] at hnd
    have hnd' : (rs.map (·.id)).Nodup := (List.nodup_cons.mp hnd).2
    cases i with
    | zero => simp [posIn]
    | succ j =>
      have hj : j < rs.length := Nat.lt_of_succ_lt_succ h
      have hmem : ((rs.get ⟨j, hj⟩).id) ∈ rs.map (·.id) :=
        List.mem_map_of_mem _ (rs.get_mem j hj)
      have hne : r.id ≠ (rs.get ⟨j, hj⟩).id := by
        intro hcon
        apply (List.nodup_cons.mp hnd).1
        rw [hcon]
        exact hmem
      simp only [List.get_cons_succ]
      simp only [posIn, hne, if_false, ih hnd' j hj, Option.map_some']

/-- The ranking-assignment UPDATE only touches the `ranking` column. -/
lemma assignRow_fields (sorted : List AttemptRow) (a : AttemptRow) :
    (assignRow sorted a).id = a.id ∧
    (assignRow sorted a).completed_at = a.completed_at ∧
    (assignRow sorted a).ranking =
      (match posIn sorted a.id with
       | some i => if i + 1 ≤ 3 then some (i + 1) else a.ranking
       | none => a.ranking) := by
  unfold assignRow
  cases hp : posIn sorted a.id with
  | none => exact ⟨rfl, rfl, rfl⟩
  | some i =>
    by_cases h3 : i + 1 ≤ 3
    · simp [h3]
    · simp [h3]

/-- **C2.** For a quiz whose deadline has passed, `calculate_quiz_rankings`
assigns rankings 1, 2 and 3 to the first three completed attempts in the
order: score descending, then `time_taken_seconds` ascending, then
`completed_at` ascending (NULLs last, ties by the stable sort order, and
with the times the preparatory UPDATE just filled in); every completed
attempt past third place, and every attempt without a `completed_at`, ends
with a NULL ranking. -/
theorem C2_rankings_top3 (now : Int) (sessions : List QuizSessionRow) (qid : Id)
    (attempts : List AttemptRow) (d : Int)
    (hdl : sessionDeadline sessions qid = some d) (hpast : ¬ now < d)
    (hq : ∀ a ∈ attempts, a.quiz_session_id = qid)
    (hnd : (attempts.map (·.id)).Nodup) :
    List.Sorted rankLe (rankingSorted qid attempts) ∧
    (rankingSorted qid attempts).Perm
      (completedAttempts qid (rankingPrepared qid attempts)) ∧
    ∀ b ∈ calculate_quiz_rankings now sessions qid attempts,
      (b.completed_at = none → b.ranking = none) ∧
      (∀ i (hi : i < (rankingSorted qid attempts).length),
        b.id = ((rankingSorted qid attempts).get ⟨i, hi⟩).id →
        b.ranking = if i < 3 then some (i + 1) else none) := by
  have hperm : (rankingSorted qid attempts).Perm
      (completedAttempts qid (rankingPrepared qid attempts)) :=
    List.perm_insertionSort rankLe _
  have hprep_nd : ((rankingPrepared qid attempts).map (·.id)).Nodup := by
    rw [rankingPrepared_map_id]
    exact hnd
  have hcomp_nd :
      ((completedAttempts qid (rankingPrepared qid attempts)).map (·.id)).Nodup := by
    have hsub : (completedAttempts qid (rankingPrepared qid attempts)).Sublist
        (rankingPrepared qid attempts) := List.filter_sublist _
    exact (hsub.map (·.id)).nodup hprep_nd
  have hsort_nd : ((rankingSorted qid attempts).map (·.id)).Nodup :=
    ((hperm.map (·.id)).nodup_iff).mpr hcomp_nd
  have hout : calculate_quiz_rankings now sessions qid attempts
      = assignRankings (rankingSorted qid attempts) (rankingPrepared qid attempts) := by
    simp only [calculate_quiz_rankings, hdl]
    rw [if_neg hpast]
  refine ⟨List.sorted_insertionSort rankLe _, hperm, ?_⟩
  intro b hb
  rw [hout] at hb
  unfold assignRankings at hb
  rcases List.mem_map.mp hb with ⟨a, ha, rfl⟩
  obtain ⟨hfid, hfcomp, hfrank⟩ := assignRow_fields (rankingSorted qid attempts) a
  have harank : a.ranking = none := rankingPrepared_ranking qid attempts hq a ha
  constructor
  · intro hbc
    have hac : a.completed_at = none := by rw [← hfcomp]; exact hbc
    have hpos : posIn (rankingSorted qid attempts) a.id = none := by
      rw [posIn_eq_none]
      intro r hr hcon
      have hrc : r ∈ completedAttempts qid (rankingPrepared qid attempts) :=
        hperm.subset hr
      have hrsome : r.completed_at.isSome = true := by
        have hp := List.of_mem_filter hrc
        simp only [Bool.and_eq_true, decide_eq_true_eq] at hp
        exact hp.2
      have hrprep : r ∈ rankingPrepared qid attempts :=
        List.mem_of_mem_filter hrc
      have hra : r = a := List.inj_on_of_nodup_map hprep_nd hrprep ha hcon
      rw [hra, hac] at hrsome
      simp at hrsome
    rw [hfrank, hpos, harank]
  · intro i hi hid
    have haid : a.id = ((rankingSorted qid attempts).get ⟨i, hi⟩).id := by
      rw [← hfid]
      exact hid
    have hpos : posIn (rankingSorted qid attempts) a.id = some i := by
      rw [haid]
      exact posIn_get _ hsort_nd i hi
    rw [hfrank, hpos]
    by_cases h3 : i + 1 ≤ 3
    · have h3' : i < 3 := by omega
      simp [h3, h3']
    · have h3' : ¬ i < 3 := by omega
      simp [h3, h3', harank]

/-- **C3.** Rankings are populated only after the deadline: when the session
does not exist or its deadline is still in the future,
`calculate_quiz_rankings` leaves the `quiz_attempts` table exactly as it was
(no ranking and no `time_taken_seconds` written); and the results screen
invokes the recalculation exactly when the fetched deadline is earlier than
the current time. -/
theorem C3_no_ranking_before_deadline (now : Int) (sessions : List QuizSessionRow)
    (qid : Id) (attempts : List AttemptRow) (d : Int) :
    (sessionDeadline sessions qid = none →
      calculate_quiz_rankings now sessions qid attempts = attempts) ∧
    (sessionDeadline sessions qid = some d → now < d →
      calculate_quiz_rankings now sessions qid attempts = attempts) ∧
    (∀ dl t : Int, loadResultsRecalculates dl t = true ↔ dl < t) := by
  refine ⟨?_, ?_, ?_⟩
  · intro h
    simp [calculate_quiz_rankings, h]
  · intro h hfut
    simp [calculate_quiz_rankings, h, hfut]
  · intro dl t
    simp [loadResultsRecalculates]

/-- Concrete sessions table for the C2 witness: one quiz with deadline 10. -/
def w2Sessions : List QuizSessionRow :=
  [{ id := "qz", group_id := some "g1", deadline := 10, duration_seconds := none,
     duration_minutes := none, is_active := true }]

/-- Concrete attempts for the C2 witness: three completed attempts (one with a
NULL `time_taken_seconds` to be filled in) and one uncompleted attempt. -/
def w2Attempts : List AttemptRow :=
  [{ id := "a1", quiz_session_id := "qz", student_id := "s1", started_at := 50,
     completed_at := some 100, score := some 3, total_questions := 5,
     time_taken_seconds := some 30, ranking := some 9 },
   { id := "a2", quiz_session_id := "qz", student_id := "s2", started_at := 40,
     completed_at := some 90, score := some 3, total_questions := 5,
     time_taken_seconds := some 20, ranking := none },
   { id := "a3", quiz_session_id := "qz", student_id := "s3", started_at := 30,
     completed_at := some 80, score := some 1, total_questions := 5,
     time_taken_seconds := none, ranking := none },
   { id := "a4", quiz_session_id := "qz", student_id := "s4", started_at := 20,
     completed_at := none, score := some 5, total_questions := 5,
     time_taken_seconds := none, ranking := some 2 }]

/-- Witness for C2 at a concrete input (now = 20, past the deadline 10). -/
theorem C2_witness :
    List.Sorted rankLe (rankingSorted "qz" w2Attempts) ∧
    (rankingSorted "qz" w2Attempts).Perm
      (completedAttempts "qz" (rankingPrepared "qz" w2Attempts)) ∧
    ∀ b ∈ calculate_quiz_rankings 20 w2Sessions "qz" w2Attempts,
      (b.completed_at = none → b.ranking = none) ∧
      (∀ i (hi : i < (rankingSorted "qz" w2Attempts).length),
        b.id = ((rankingSorted "qz" w2Attempts).get ⟨i, hi⟩).id →
        b.ranking = if i < 3 then some (i + 1) else none) :=
  C2_rankings_top3 20 w2Sessions "qz" w2Attempts 10 (by decide) (by decide)
    (by decide) (by decide)

/-- Witness for C3 at concrete inputs: an empty sessions table (the quiz does
not exist) leaves the attempts unchanged, and a future deadline leaves them
unchanged too; the results screen's gate is the strict comparison. -/
theorem C3_witness :
    calculate_quiz_rankings 5 [] "qz" w2Attempts = w2Attempts ∧
    calculate_quiz_rankings 5 w2Sessions "qz" w2Attempts = w2Attempts ∧
    (loadResultsRecalculates 3 5 = true ↔ (3 : Int) < 5) := by
  obtain ⟨h1, -, h3⟩ := C3_no_ranking_before_deadline 5 [] "qz" w2Attempts 0
  obtain ⟨-, h2, -⟩ := C3_no_ranking_before_deadline 5 w2Sessions "qz" w2Attempts 10
  exact ⟨h1 (by decide), h2 (by decide) (by decide), h3 3 5⟩

/-! ### C4: countdown-timer initialization

QuizPlay.tsx line 210: `const durationSeconds = (quizData as any).duration_seconds
|| 1800;`.  The client reads a `duration_seconds` field (which `Quizzes.tsx`
writes, in seconds), while the rankings migration declares the stored duration
column as `duration_minutes INTEGER DEFAULT 30` — the migrations in the
repository never add a `duration_seconds` column.  JS `||` also falls back on
the value `0`. -/

/-- The countdown's initial value in seconds. -/
def initialTimerSeconds (quiz : QuizSessionRow) : Int :=
  match quiz.duration_seconds with
  | some s => if s = 0 then 1800 else s
  | none => 1800

/-- A session whose duration is configured through the migration's
`duration_minutes` column (45 minutes), with no `duration_seconds` field. -/
def c4Session : QuizSessionRow :=
  { id := "qz", group_id := none, deadline := 50, duration_seconds := none,
    duration_minutes := some 45, is_active := true }

/-- Counterexample to C4 as stated: this session has a configured duration
(45 minutes = 2700 seconds, stored in the `duration_minutes` column the
migration declares), yet the timer is initialized to the 1800-second default
rather than to the configured duration. -/
theorem C4_counterexample :
    c4Session.duration_minutes = some 45 ∧
    initialTimerSeconds c4Session = 1800 ∧
    initialTimerSeconds c4Session ≠ 45 * 60 := by
  refine ⟨rfl, rfl, ?_⟩
  decide

/-- **C4 (amended).** The timer is initialized to the quiz row's
`duration_seconds` field when that field is present and nonzero; it falls
back to the 1800-second default whenever `duration_seconds` is absent or
zero — independently of the `duration_minutes` column added by the rankings
migration, which is never read. -/
theorem C4_amended_timer_init (quiz : QuizSessionRow) :
    (∀ s : Int, quiz.duration_seconds = some s → s ≠ 0 →
      initialTimerSeconds quiz = s) ∧
    ((quiz.duration_seconds = none ∨ quiz.duration_seconds = some 0) →
      initialTimerSeconds quiz = 1800) ∧
    (∀ m : Option Int,
      initialTimerSeconds { quiz with duration_minutes := m }
        = initialTimerSeconds quiz) := by
  refine ⟨?_, ?_, ?_⟩
  · intro s hs hnz
    simp [initialTimerSeconds, hs, hnz]
  · rintro (h | h) <;> simp [initialTimerSeconds, h]
  · intro m
    unfold initialTimerSeconds
    rfl

/-- Witness for the amended C4 at concrete sessions: 900 configured seconds
are used; a missing `duration_seconds` (even with `duration_minutes = 45`)
gives 1800. -/
theorem C4_witness :
    initialTimerSeconds
      { id := "qz", group_id := none, deadline := 50,
        duration_seconds := some 900, duration_minutes := none,
        is_active := true } = 900 ∧
    initialTimerSeconds c4Session = 1800 := by
  constructor
  · exact (C4_amended_timer_init _).1 900 rfl (by decide)
  · exact (C4_amended_timer_init c4Session).2.1 (Or.inl rfl)

/-! ### C7: the quiz editor's single-answer radio behaviour (QuizEdit.tsx)

`updateAnswer` (lines 116–129) merges a partial update into one answer and
then, for `'single'`-type questions when the update marks an answer correct,
rewrites every answer's `is_correct` to `i === aIndex`.  The `saveQuiz`
validation (lines 154–170) only requires a non-empty question text, at least
two non-empty answers, and at least one correct answer. -/

/-- An answer row as the editor holds it (`id` unset for new rows). -/
structure EAnswer where
  id : Option Id
  answer_text : String
  is_correct : Bool
  order_index : Int
deriving DecidableEq, Repr

/-- A question as the editor holds it. -/
structure EQuestion where
  id : Option Id
  question_text : String
  question_type : QType
  image_url : Option String
  order_index : Int
  answers : List EAnswer
deriving DecidableEq, Repr

/-- A `Partial<Answer>` update: fields that are present replace the old ones. -/
structure AnswerUpdates where
  answer_text : Option String := none
  is_correct : Option Bool := none
deriving DecidableEq, Repr

/-- Transliterates `\x7b ...updated[qIndex].answers[aIndex], ...updates \x7d`. -/
def applyAnswerUpdates (a : EAnswer) (u : AnswerUpdates) : EAnswer :=
  { a with
      answer_text := u.answer_text.getD a.answer_text
      is_correct := u.is_correct.getD a.is_correct }

/-- The radio-style rewrite `answers.map((a, i) => ({ ...a, is_correct:
i === aIndex }))`. -/
def markOnlyCorrect (answers : List EAnswer) (aIndex : Nat) : List EAnswer :=
  answers.mapIdx (fun i a => { a with is_correct := decide (i = aIndex) })

/-- Line 118, `updated[qIndex].answers[aIndex] = \x7b ...old, ...updates \x7d`:
the in-place merge of the partial update into one answer slot. -/
def answersAfterSet (q : EQuestion) (aIndex : Nat) (u : AnswerUpdates) :
    List EAnswer :=
  match q.answers[aIndex]? with
  | some a => q.answers.set aIndex (applyAnswerUpdates a u)
  | none => q.answers

/-- Function `updateAnswer(qIndex, aIndex, updates)` (lines 116–129).  The rewrite to a
single correct answer fires exactly when the update sets `is_correct` to a
truthy value and the question's type is `'single'`. -/
def updateAnswer (qs : List EQuestion) (qIndex aIndex : Nat) (u : AnswerUpdates) :
    List EQuestion :=
  match qs[qIndex]? with
  | none => qs
  | some q =>
    let answers1 := answersAfterSet q aIndex u
    let answers2 :=
      if u.is_correct = some true ∧ q.question_type = .single then
        markOnlyCorrect answers1 aIndex
      else answers1
    qs.set qIndex { q with answers := answers2 }

/-- JS `String.prototype.trim`: strip leading and trailing whitespace. -/
def isJsWhitespace (c : Char) : Bool :=
  c = ' ' || c = '\t' || c = '\n' || c = '\r'

/-- Executable model of `.trim()` on the string's character data. -/
def trimString (s : String) : String :=
  ⟨((s.data.dropWhile isJsWhitespace).reverse.dropWhile isJsWhitespace).reverse⟩

/-- One question's clause of the `saveQuiz` validation loop (lines 155–170):
non-empty trimmed text, at least two answers with non-empty trimmed text, and
at least one correct answer. -/
def validQuestion (q : EQuestion) : Bool :=
  !(trimString q.question_text = "") &&
    decide
      (2 ≤ (q.answers.filter (fun a => !(trimString a.answer_text = ""))).length) &&
    q.answers.any (·.is_correct)

/-- The whole validation: every question passes (the loop returns early on
the first failure; the save proceeds iff all pass). -/
def saveQuizValidates (qs : List EQuestion) : Bool :=
  qs.all validQuestion

lemma markOnlyCorrect_get (answers : List EAnswer) (aIndex : Nat) (i : Nat)
    (hi : i < (markOnlyCorrect answers aIndex).length) :
    ((markOnlyCorrect answers aIndex).get ⟨i, hi⟩).is_correct = decide (i = aIndex) := by
  unfold markOnlyCorrect at hi ⊢
  rw [List.get_eq_getElem, List.getElem_mapIdx]

lemma markOnlyCorrect_length (answers : List EAnswer) (aIndex : Nat) :
    (markOnlyCorrect answers aIndex).length = answers.length := by
  unfold markOnlyCorrect
  rw [List.length_mapIdx]

/-- Marking all-false never survives the correctness filter. -/
lemma filter_mark_none (l : List EAnswer) (f : Nat → EAnswer → EAnswer)
    (hf : ∀ i a, (f i a).is_correct = false) :
    (l.mapIdx f).filter (·.is_correct) = [] := by
  induction l generalizing f with
  | nil => rfl
  | cons a tl ih =>
    rw [List.mapIdx_cons, List.filter_cons, if_neg (by simp [hf 0 a])]
    exact ih _ (fun i a => hf (i + 1) a)

/-- Exactly one answer survives the correctness filter after the radio-style
rewrite, provided the marked index is in range. -/
lemma filter_mark_length (l : List EAnswer) (k : Nat) (hk : k < l.length) :
    ((markOnlyCorrect l k).filter (·.is_correct)).length = 1 := by
  unfold markOnlyCorrect
  induction l generalizing k with
  | nil => cases hk
  | cons a tl ih =>
    rw [List.mapIdx_cons]
    cases k with
    | zero =>
      rw [List.filter_cons, if_pos (by simp)]
      have hall : (tl.mapIdx (fun i (a : EAnswer) =>
          { a with is_correct := decide (i + 1 = 0) })).filter (·.is_correct)
            = [] :=
        filter_mark_none tl _ (fun i a => by simp)
      simp only [List.length_cons]
      rw [hall]
      rfl
    | succ j =>
      have hfun : (fun i (a : EAnswer) =>
            { a with is_correct := decide (i + 1 = j + 1) })
          = (fun i (a : EAnswer) => { a with is_correct := decide (i = j) }) := by
        funext i a
        simp
      rw [List.filter_cons, if_neg (by simp), hfun]
      exact ih j (Nat.lt_of_succ_lt_succ hk)

/-- A concrete `'single'`-type question with *two* correct answer rows that the
save-time validation nevertheless accepts. -/
def c7TwoCorrectSingle : EQuestion :=
  { id := none, question_text := "Q", question_type := .single,
    image_url := none, order_index := 0,
    answers :=
      [{ id := none, answer_text := "A", is_correct := true, order_index := 0 },
       { id := none, answer_text := "B", is_correct := true, order_index := 1 }] }

/-- **C7.** In the quiz editor, marking any answer of a `'single'`-type
question as correct sets `is_correct` to true for exactly that answer and to
false for every other answer of the question, so the edited question has
exactly one correct answer row; and the save-time validation requires only at
least one correct answer per question — it accepts a `'single'`-type question
with two correct rows, so no equivalent constraint holds at the data layer. -/
theorem C7_single_radio_exactly_one (qs : List EQuestion) (qIndex aIndex : Nat)
    (u : AnswerUpdates) (q : EQuestion)
    (hq : qs[qIndex]? = some q) (hqt : q.question_type = .single)
    (hu : u.is_correct = some true) (ha : aIndex < q.answers.length) :
    (∃ q', (updateAnswer qs qIndex aIndex u)[qIndex]? = some q' ∧
      (q'.answers.filter (·.is_correct)).length = 1 ∧
      ∀ i (hi : i < q'.answers.length),
        ((q'.answers.get ⟨i, hi⟩).is_correct = true ↔ i = aIndex)) ∧
    saveQuizValidates [c7TwoCorrectSingle] = true := by
  have hlt : qIndex < qs.length := by
    by_contra hcon
    rw [List.getElem?_eq_none (Nat.le_of_not_lt hcon)] at hq
    cases hq
  have hset : updateAnswer qs qIndex aIndex u
      = qs.set qIndex
          { q with answers := markOnlyCorrect (answersAfterSet q aIndex u) aIndex } := by
    simp only [updateAnswer, hq]
    rw [if_pos ⟨hu, hqt⟩]
  have hget : (updateAnswer qs qIndex aIndex u)[qIndex]?
      = some { q with
          answers := markOnlyCorrect (answersAfterSet q aIndex u) aIndex } := by
    rw [hset]
    exact List.getElem?_set_self hlt
  have hlen1 : (answersAfterSet q aIndex u).length = q.answers.length := by
    unfold answersAfterSet
    cases hpa : q.answers[aIndex]? with
    | none => rfl
    | some a => exact List.length_set q.answers aIndex _
  have haIdx : aIndex < (answersAfterSet q aIndex u).length := by
    rw [hlen1]
    exact ha
  refine ⟨⟨_, hget, ?_, ?_⟩, by decide⟩
  · exact filter_mark_length (answersAfterSet q aIndex u) aIndex haIdx
  · intro i hi
    rw [markOnlyCorrect_get (answersAfterSet q aIndex u) aIndex i hi]
    simp

/-- Witness for C7 at a concrete editor state: marking answer 1 of a
two-answer single-type question correct leaves exactly answer 1 correct. -/
theorem C7_witness :
    (∃ q', (updateAnswer [c7TwoCorrectSingle] 0 1
        { answer_text := none, is_correct := some true })[0]? = some q' ∧
      (q'.answers.filter (·.is_correct)).length = 1 ∧
      ∀ i (hi : i < q'.answers.length),
        ((q'.answers.get ⟨i, hi⟩).is_correct = true ↔ i = 1)) ∧
    saveQuizValidates [c7TwoCorrectSingle] = true :=
  C7_single_radio_exactly_one [c7TwoCorrectSingle] 0 1
    { answer_text := none, is_correct := some true } c7TwoCorrectSingle
    rfl rfl rfl (by decide)

end ICTQuiz
